import Mathlib

/-!
Shallow embedding of the evolutionary-search engine of the repository
`spots-and-stripes` (two Python scripts run inside the Golly cellular-automaton
host: `selection-and-evolvability.py`, a three-state Immigration-rule variant,
and `spots-and-stripes.py`, a two-state Game-of-Life variant).

Modelling choices, shared by every definition below:
* Grids (`np` integer matrices) are `List (List ℤ)`; indexed reads
  `m[i][j]` become `matGet` with the out-of-range default 0 (all in-range
  accesses of the scripts stay in range, so the default is never observed
  on the executions the theorems quantify over).
* The random source (`random.random()` / `random.randrange(n)`) is a pair of
  streams: a list of rationals consumed by `random()` draws and a list of
  naturals consumed (mod `n`) by `randrange(n)` draws.  An exhausted stream
  yields the default draw 0 — concrete witnesses never exhaust a stream.
* Fallible Python behaviour (`assert`, `randrange(0)` raising `ValueError`,
  `list[-1]` on an empty list raising `IndexError`) is `Except PyErr`.
* The Golly growth call (`grow_matrix`) is an external collaborator; the
  engine definitions take an opaque `grow : Mat → Mat` parameter.
-/

/-- Machine-integer grid, as in the scripts (numpy `int` matrices). -/
abbrev Mat : Type := List (List ℤ)

/-- Read `m[i][j]` with default 0 (numpy matrices in the scripts are rectangular
and every access is in range). -/
def matGet (m : Mat) (i j : ℕ) : ℤ := (m.getD i []).getD j 0

/-- The random source: `floats` feeds `rand.random()`, `ints` feeds
`rand.randrange`. -/
structure RState where
  floats : List ℚ
  ints : List ℕ
deriving DecidableEq

/-- Python errors the scripts can raise. -/
inductive PyErr where
  /-- a failing `assert` statement -/
  | assertFail : PyErr
  /-- `ValueError` from `rand.randrange(0)` -/
  | valueErr : PyErr
  /-- `IndexError` from `sorted_samples[-1]` on an empty list -/
  | indexErr : PyErr
deriving DecidableEq

deriving instance DecidableEq for Except

/-- `rand.random()`: consume the next float draw. -/
def randFloat (s : RState) : ℚ × RState :=
  (s.floats.headD 0, ⟨s.floats.tail, s.ints⟩)

/-- `rand.randrange(n)`: consume the next index draw, reduced into range;
`randrange(0)` raises `ValueError`. -/
def randRange (n : ℕ) (s : RState) : Except PyErr (ℕ × RState) :=
  if n = 0 then .error .valueErr
  else .ok (s.ints.headD 0 % n, ⟨s.floats, s.ints.tail⟩)

/-- A population member `[seed, adult, fitness]` (the scripts use 3-lists). -/
structure Member where
  seed : Mat
  adult : Mat
  fitness : ℤ
deriving DecidableEq

instance : Inhabited Member := ⟨⟨[], [], 0⟩⟩

/-- Thread the random state through a map (the nested `for` loops of the
scripts, which build a fresh matrix row by row). -/
def threadMap {α β : Type} (f : α → RState → β × RState) :
    List α → RState → List β × RState
  | [], s => ([], s)
  | a :: rest, s =>
    let (b, s) := f a s
    let (bs, s) := threadMap f rest s
    (b :: bs, s)

/-- Thread the random state through a fallible map. -/
def threadMapE {α β : Type} (f : α → RState → Except PyErr (β × RState)) :
    List α → RState → Except PyErr (List β × RState)
  | [], s => .ok ([], s)
  | a :: rest, s =>
    match f a s with
    | .error e => .error e
    | .ok (b, s) =>
      match threadMapE f rest s with
      | .error e => .error e
      | .ok (bs, s) => .ok (b :: bs, s)

namespace SS

/-! Embedding of `spots-and-stripes.py` (two colours: `white = 0` dead
background, `black = 1` live), functions needed by the claims. -/

/-- Colour id `white = 0` (the dead background state of the Life rule). -/
def white : ℤ := 0

/-- Colour id `black = 1` (the live state). -/
def black : ℤ := 1

/-- One cell of `mutate_seed` (`spots-and-stripes.py`, lines 204-228).
`new_matrix` is `np.zeros`, so a cell that is never assigned stays 0:
in the black branch, both coin outcomes leave the cell 0 (= white) —
the explicit assignment writes `white`, and no assignment keeps the 0 of
the zero-initialised matrix. -/
def mutateCell (c : ℤ) (prob_mutation : ℚ) (s : RState) : ℤ × RState :=
  let (r, s) := randFloat s
  if r < prob_mutation then
    if c = white then
      let (r2, s) := randFloat s
      (if r2 < mkRat 1 2 then black else 0, s)
    else
      let (r2, s) := randFloat s
      (if r2 < mkRat 1 2 then white else 0, s)
  else (c, s)

/-- `mutate_seed(seed_matrix, prob_mutation)` of `spots-and-stripes.py`:
row-major sweep, each cell independently mutated. -/
def mutate_seed (seed : Mat) (prob_mutation : ℚ) (s : RState) : Mat × RState :=
  let rows := seed.length
  let cols := (seed.headD []).length
  threadMap
    (fun i => threadMap (fun j => mutateCell (matGet seed i j) prob_mutation)
      (List.range cols))
    (List.range rows) s

end SS

namespace SE

/-! Embedding of `selection-and-evolvability.py` (three colours:
`white = 0` background, `red = 1`, `blue = 2`). -/

/-- Colour id `white = 0`. -/
def white : ℤ := 0

/-- Colour id `red = 1`. -/
def red : ℤ := 1

/-- Colour id `blue = 2`. -/
def blue : ℤ := 2

/-- One cell of `make_seed_matrix` (lines 129-179): independent biased coins
for red and blue, a fair coin breaks a double win, then the cell is written
(red first, blue second) over the zero-initialised matrix. -/
def makeSeedCell (prob_red prob_blue : ℚ) (s : RState) : ℤ × RState :=
  let (r1, s) := randFloat s
  let red0 : ℕ := if r1 < prob_red then 1 else 0
  let (r2, s) := randFloat s
  let blue0 : ℕ := if r2 < prob_blue then 1 else 0
  let (red_state, blue_state, s) :=
    if red0 = 1 ∧ blue0 = 1 then
      let (r3, s) := randFloat s
      if r3 < mkRat 1 2 then ((0 : ℕ), (1 : ℕ), s) else ((1 : ℕ), (0 : ℕ), s)
    else (red0, blue0, s)
  (if blue_state = 1 then blue else if red_state = 1 then red else white, s)

/-- `make_seed_matrix(prob_red, prob_blue, evolvability)`: an
`evolvability × evolvability` grid of independent cells. -/
def make_seed_matrix (prob_red prob_blue : ℚ) (evolvability : ℕ) (s : RState) :
    Mat × RState :=
  threadMap
    (fun _ => threadMap (fun _ => makeSeedCell prob_red prob_blue)
      (List.range evolvability))
    (List.range evolvability) s

/-- One cell of the three-state `mutate_seed` (lines 223-259); the white
branch carries the script's `assert (seed_matrix[i][j] == white)`. -/
def mutateCell (c : ℤ) (prob_mutation : ℚ) (s : RState) :
    Except PyErr (ℤ × RState) :=
  let (r, s) := randFloat s
  if r < prob_mutation then
    if c = red then
      let (r2, s) := randFloat s
      .ok (if r2 < mkRat 1 2 then blue else white, s)
    else if c = blue then
      let (r2, s) := randFloat s
      .ok (if r2 < mkRat 1 2 then red else white, s)
    else
      if c = white then
        let (r2, s) := randFloat s
        .ok (if r2 < mkRat 1 2 then red else blue, s)
      else .error .assertFail
  else .ok (c, s)

/-- The three-state `mutate_seed(seed_matrix, prob_mutation)`. -/
def mutate_seed (seed : Mat) (prob_mutation : ℚ) (s : RState) :
    Except PyErr (Mat × RState) :=
  let rows := seed.length
  let cols := (seed.headD []).length
  threadMapE
    (fun i => threadMapE (fun j => mutateCell (matGet seed i j) prob_mutation)
      (List.range cols))
    (List.range rows) s

/-- The five counters of `compare` (lines 340-383). -/
structure CompareResult where
  fitness : ℤ
  true_blue : ℤ
  true_red : ℤ
  false_blue : ℤ
  false_red : ℤ
deriving DecidableEq

/-- The four independent `if` updates of the `compare` inner loop for one
cell pair. -/
def compareCell (r : CompareResult) (a t : ℤ) : CompareResult :=
  let r := if a = blue ∧ t = blue then
    { r with fitness := r.fitness + 1, true_blue := r.true_blue + 1 } else r
  let r := if a = red ∧ t = red then
    { r with fitness := r.fitness + 1, true_red := r.true_red + 1 } else r
  let r := if a = blue ∧ t = red then
    { r with fitness := r.fitness - 1, false_blue := r.false_blue - 1 } else r
  let r := if a = red ∧ t = blue then
    { r with fitness := r.fitness - 1, false_red := r.false_red - 1 } else r
  r

/-- The `compare` double loop over the 60×60 grids (after the dimension
asserts have fixed `rows = cols = 60`). -/
def comparePure (adult target : Mat) : CompareResult :=
  (List.range 60).foldl
    (fun acc i =>
      (List.range 60).foldl
        (fun acc2 j => compareCell acc2 (matGet adult i j) (matGet target i j))
        acc)
    ⟨0, 0, 0, 0, 0⟩

/-- `compare(adult, target, adult_size)` with its five `assert` statements on
the dimensions, returning `[fitness, true_blue, true_red, false_blue,
false_red]`. -/
def compare (adult target : Mat) (adult_size : ℕ) (s : RState) :
    Except PyErr (CompareResult × RState) :=
  if adult_size = 60 ∧ adult.length = 60 ∧ (adult.headD []).length = 60
      ∧ target.length = 60 ∧ (target.headD []).length = 60 then
    .ok (comparePure adult target, s)
  else .error .assertFail

/-- The `for i in range(sample_size)` loop of `mutate_and_select_seed`
(lines 309-317), tracking the least- and most-fit sampled positions. -/
def sampleLoop (pop : List Member) :
    ℕ → ℕ × ℤ × ℕ × ℤ → RState → Except PyErr ((ℕ × ℤ × ℕ × ℤ) × RState)
  | 0, st, s => .ok (st, s)
  | n + 1, (least_fit_pos, least_fit_val, most_fit_pos, most_fit_val), s =>
    match randRange pop.length s with
    | .error e => .error e
    | .ok (pos, s) =>
      let val := (pop.getD pos default).fitness
      let (least_fit_pos, least_fit_val) :=
        if val < least_fit_val then (pos, val)
        else (least_fit_pos, least_fit_val)
      let (most_fit_pos, most_fit_val) :=
        if val > most_fit_val then (pos, val) else (most_fit_pos, most_fit_val)
      sampleLoop pop n (least_fit_pos, least_fit_val, most_fit_pos,
        most_fit_val) s

/-- `mutate_and_select_seed(population, sample_size, target, prob_mutation)`
(lines 266-329): its own two initial `randrange` draws plus `sample_size`
loop draws over the whole population, an in-place overwrite of the sampled
least-fit slot's seed by the sampled most-fit slot's seed, and the mutated
copy of that seed as return value.  The `target` argument is never used. -/
def mutate_and_select_seed (pop : List Member) (sample_size : ℕ) (target : Mat)
    (prob_mutation : ℚ) (s : RState) :
    Except PyErr ((List Member × Mat) × RState) :=
  let population_size := pop.length
  -- assert (sample_size <= population_size); assert (sample_size >= 0)
  -- (the second assert is trivially true for a natural number)
  if sample_size ≤ population_size then
    match randRange population_size s with
    | .error e => .error e
    | .ok (least_fit_pos, s) =>
      let least_fit_val := (pop.getD least_fit_pos default).fitness
      match randRange population_size s with
      | .error e => .error e
      | .ok (most_fit_pos, s) =>
        let most_fit_val := (pop.getD most_fit_pos default).fitness
        match sampleLoop pop sample_size
          (least_fit_pos, least_fit_val, most_fit_pos, most_fit_val) s with
        | .error e => .error e
        | .ok ((least_fit_pos, _, most_fit_pos, _), s) =>
          -- population[least_fit_pos][0] = population[most_fit_pos][0]
          let newPop := pop.set least_fit_pos
            { pop.getD least_fit_pos default with
              seed := (pop.getD most_fit_pos default).seed }
          let seed_matrix := (newPop.getD least_fit_pos default).seed
          match mutate_seed seed_matrix prob_mutation s with
          | .error e => .error e
          | .ok (seed_matrix, s) => .ok ((newPop, seed_matrix), s)
  else .error .assertFail

/-- The generation-zero inner loop (lines 603-613): draw `sample_size` fresh
seeds, grow each with the external collaborator `grow`, score against the
target, and keep `[seed, adult, fitness]`; carries the script's
`assert fitness == true_blue + true_red + false_blue + false_red`. -/
def sampleSet (grow : Mat → Mat) (prob_red prob_blue : ℚ)
    (evolvability adult_size : ℕ) (target : Mat) :
    ℕ → RState → Except PyErr (List Member × RState)
  | 0, s => .ok ([], s)
  | n + 1, s =>
    let (seed, s) := make_seed_matrix prob_red prob_blue evolvability s
    let adult := grow seed
    match compare adult target adult_size s with
    | .error e => .error e
    | .ok (res, s) =>
      if res.fitness = res.true_blue + res.true_red + res.false_blue
          + res.false_red then
        match sampleSet grow prob_red prob_blue evolvability adult_size target
          n s with
        | .error e => .error e
        | .ok (rest, s) => .ok (⟨seed, adult, res.fitness⟩ :: rest, s)
      else .error .assertFail

/-- One generation-zero slot (lines 598-619): collect the samples, sort them
by fitness with Python's stable ascending `sorted` (modelled by the stable
`List.insertionSort`), and take `sorted_samples[-1]` — an `IndexError` if
the sample set is empty. -/
def bootstrapSlot (grow : Mat → Mat) (prob_red prob_blue : ℚ)
    (evolvability adult_size sample_size : ℕ) (target : Mat) (s : RState) :
    Except PyErr (Member × RState) :=
  match sampleSet grow prob_red prob_blue evolvability adult_size target
    sample_size s with
  | .error e => .error e
  | .ok (sample_set, s) =>
    let sorted_samples :=
      List.insertionSort (fun a b => a.fitness ≤ b.fitness) sample_set
    match sorted_samples.getLast? with
    | none => .error .indexErr
    | some best_sample => .ok (best_sample, s)

/-- The generation-zero loop `for individual in range(population_size)`,
appending one best-of-sample member per slot. -/
def bootstrap (grow : Mat → Mat) (prob_red prob_blue : ℚ)
    (evolvability adult_size sample_size : ℕ) (target : Mat) :
    ℕ → RState → Except PyErr (List Member × RState)
  | 0, s => .ok ([], s)
  | n + 1, s =>
    match bootstrapSlot grow prob_red prob_blue evolvability adult_size
      sample_size target s with
    | .error e => .error e
    | .ok (best_sample, s) =>
      match bootstrap grow prob_red prob_blue evolvability adult_size
        sample_size target n s with
      | .error e => .error e
      | .ok (rest, s) => .ok (best_sample :: rest, s)

/-- One steady-state birth (lines 626-668): draw two member indices with the
configured `population_size`, compare stored fitnesses, call
`mutate_and_select_seed`, grow and score the returned seed, and overwrite
`position2` in the `fitness1 > fitness2` branch, `position1` otherwise;
carries the script's decomposition assert on the recomputed fitness. -/
def evoStep (population_size sample_size : ℕ) (prob_mutation : ℚ)
    (adult_size : ℕ) (target : Mat) (grow : Mat → Mat) (pop : List Member)
    (s : RState) : Except PyErr (List Member × RState) :=
  match randRange population_size s with
  | .error e => .error e
  | .ok (position1, s) =>
    match randRange population_size s with
    | .error e => .error e
    | .ok (position2, s) =>
      let organism1 := pop.getD position1 default
      let organism2 := pop.getD position2 default
      let fitness1 := organism1.fitness
      let fitness2 := organism2.fitness
      if fitness1 > fitness2 then
        match mutate_and_select_seed pop sample_size target prob_mutation s with
        | .error e => .error e
        | .ok ((popMid, seed2), s) =>
          let adult2 := grow seed2
          match compare adult2 target adult_size s with
          | .error e => .error e
          | .ok (r, s) =>
            if r.fitness = r.true_blue + r.true_red + r.false_blue
                + r.false_red then
              .ok (popMid.set position2 ⟨seed2, adult2, r.fitness⟩, s)
            else .error .assertFail
      else
        match mutate_and_select_seed pop sample_size target prob_mutation s with
        | .error e => .error e
        | .ok ((popMid, seed1), s) =>
          let adult1 := grow seed1
          match compare adult1 target adult_size s with
          | .error e => .error e
          | .ok (r, s) =>
            if r.fitness = r.true_blue + r.true_red + r.false_blue
                + r.false_red then
              .ok (popMid.set position1 ⟨seed1, adult1, r.fitness⟩, s)
            else .error .assertFail

/-- The steady-state loop `for new_birth in range(max_births)`. -/
def evoLoop (population_size sample_size : ℕ) (prob_mutation : ℚ)
    (adult_size : ℕ) (target : Mat) (grow : Mat → Mat) :
    ℕ → List Member → RState → Except PyErr (List Member × RState)
  | 0, pop, s => .ok (pop, s)
  | n + 1, pop, s =>
    match evoStep population_size sample_size prob_mutation adult_size target
      grow pop s with
    | .error e => .error e
    | .ok (pop, s) =>
      evoLoop population_size sample_size prob_mutation adult_size target grow
        n pop s

/-- The final report loop (lines 674-692): `best_fitness_so_far` starts at 0
and the best seed/adult pair starts undefined (`none`); each member's fitness
is recomputed by `compare` and tracked with a strict greater-than test. -/
def finalLoop (target : Mat) (adult_size : ℕ) :
    List Member → ℤ → Option (Mat × Mat) → RState →
    Except PyErr ((ℤ × Option (Mat × Mat)) × RState)
  | [], best_fitness_so_far, best, s => .ok ((best_fitness_so_far, best), s)
  | m :: rest, best_fitness_so_far, best, s =>
    match compare m.adult target adult_size s with
    | .error e => .error e
    | .ok (r, s) =>
      if r.fitness > best_fitness_so_far then
        if r.fitness = r.true_blue + r.true_red + r.false_blue
            + r.false_red then
          finalLoop target adult_size rest r.fitness (some (m.seed, m.adult)) s
        else .error .assertFail
      else finalLoop target adult_size rest best_fitness_so_far best s

/-- The whole final best-fitness report. -/
def finalReport (target : Mat) (adult_size : ℕ) (pop : List Member)
    (s : RState) : Except PyErr ((ℤ × Option (Mat × Mat)) × RState) :=
  finalLoop target adult_size pop 0 none s

/-- The experiment pipeline up to the population invariant: generation-zero
bootstrap followed by `max_births` steady-state births. -/
def evolve (grow : Mat → Mat) (prob_red prob_blue prob_mutation : ℚ)
    (evolvability adult_size sample_size population_size max_births : ℕ)
    (target : Mat) (s : RState) : Except PyErr (List Member × RState) :=
  match bootstrap grow prob_red prob_blue evolvability adult_size sample_size
    target population_size s with
  | .error e => .error e
  | .ok (pop, s₁) =>
    evoLoop population_size sample_size prob_mutation adult_size target grow
      max_births pop s₁

end SE

/-! Specification-side mirrors used to state the theorems. -/

/-- Pure mirror of `SE.sampleLoop`: the same least/most tracking, reading the
index draws directly off the stream. -/
def samplePosP (pop : List Member) :
    ℕ → List ℕ → ℕ × ℤ × ℕ × ℤ → ℕ × ℤ × ℕ × ℤ
  | 0, _, st => st
  | n + 1, draws, (least_fit_pos, least_fit_val, most_fit_pos, most_fit_val) =>
    let pos := draws.headD 0 % pop.length
    let val := (pop.getD pos default).fitness
    let (least_fit_pos, least_fit_val) :=
      if val < least_fit_val then (pos, val)
      else (least_fit_pos, least_fit_val)
    let (most_fit_pos, most_fit_val) :=
      if val > most_fit_val then (pos, val) else (most_fit_pos, most_fit_val)
    samplePosP pop n draws.tail
      (least_fit_pos, least_fit_val, most_fit_pos, most_fit_val)

/-- The (least-fit, most-fit) positions that `SE.mutate_and_select_seed`
samples, as a pure function of the population and the index-draw stream. -/
def selPositions (pop : List Member) (sample_size : ℕ) (draws : List ℕ) :
    ℕ × ℕ :=
  let least_fit_pos := draws.headD 0 % pop.length
  let least_fit_val := (pop.getD least_fit_pos default).fitness
  let most_fit_pos := draws.tail.headD 0 % pop.length
  let most_fit_val := (pop.getD most_fit_pos default).fitness
  let st := samplePosP pop sample_size draws.tail.tail
    (least_fit_pos, least_fit_val, most_fit_pos, most_fit_val)
  (st.1, st.2.2.1)

/-- The last element of maximal fitness in a candidate list (the element that
a stable ascending sort puts last). -/
def lastMax : List Member → Option Member
  | [] => none
  | c :: cs =>
    match lastMax cs with
    | none => some c
    | some b => some (if c.fitness > b.fitness then c else b)

/-- The running maximum of the recomputed fitnesses, seeded with the script's
initial `best_fitness_so_far = 0`. -/
def bestFit0 (target : Mat) (pop : List Member) : ℤ :=
  pop.foldl (fun a m => max a (SE.comparePure m.adult target).fitness) 0

/-- Pure mirror of `SE.finalLoop` (the strict greater-than scan). -/
def bestScan (target : Mat) :
    List Member → ℤ → Option (Mat × Mat) → ℤ × Option (Mat × Mat)
  | [], bf, best => (bf, best)
  | m :: rest, bf, best =>
    let f := (SE.comparePure m.adult target).fitness
    if f > bf then bestScan target rest f (some (m.seed, m.adult))
    else bestScan target rest bf best

/-- A 60×60 all-white (all-background) grid, used by concrete witnesses. -/
def whiteMat : Mat := List.replicate 60 (List.replicate 60 0)

/-- A 60×60 all-blue grid, used by concrete witnesses. -/
def blueMat : Mat := List.replicate 60 (List.replicate 60 2)

/-- The fitness order used by the bootstrap's stable ascending sort is
total. -/
instance : IsTotal Member (fun a b => a.fitness ≤ b.fitness) :=
  ⟨fun a b => le_total a.fitness b.fitness⟩

/-- The fitness order used by the bootstrap's stable ascending sort is
transitive. -/
instance : IsTrans Member (fun a b => a.fitness ≤ b.fitness) :=
  ⟨fun _ _ _ h1 h2 => le_trans h1 h2⟩

/-- The per-cell increment applied by `SE.compareCell`, read off from zero
counters. -/
def cdelta (a t : ℤ) : SE.CompareResult := SE.compareCell ⟨0, 0, 0, 0, 0⟩ a t

/-- Add `k` copies of a per-cell increment to a counter record. -/
def addScaled (r : SE.CompareResult) (k : ℤ) (d : SE.CompareResult) :
    SE.CompareResult :=
  ⟨r.fitness + k * d.fitness, r.true_blue + k * d.true_blue,
    r.true_red + k * d.true_red, r.false_blue + k * d.false_blue,
    r.false_red + k * d.false_red⟩

/-- The decomposition invariant that `compare` maintains: the fitness is the
sum of the four counters, and the false counters are non-positive. -/
def CmpInv (r : SE.CompareResult) : Prop :=
  r.fitness = r.true_blue + r.true_red + r.false_blue + r.false_red
    ∧ r.false_blue ≤ 0 ∧ r.false_red ≤ 0

/-! # Theorems -/

theorem getD_set_self {α : Type _} (l : List α) (i : ℕ) (a d : α)
    (h : i < l.length) : (l.set i a).getD i d = a := by
  simp [List.getD_eq_getElem?_getD, List.getElem?_set_self h]

theorem getD_set_ne {α : Type _} (l : List α) {i j : ℕ} (a d : α)
    (h : i ≠ j) : (l.set i a).getD j d = l.getD j d := by
  simp [List.getD_eq_getElem?_getD, List.getElem?_set_ne h]

theorem foldl_preserve {α β : Type _} (P : α → Prop) (f : α → β → α)
    (hf : ∀ r b, P r → P (f r b)) :
    ∀ (l : List β) (r : α), P r → P (l.foldl f r) := by
  intro l
  induction l with
  | nil => intro r h; simpa using h
  | cons b bs ih => intro r h; exact ih _ (hf _ _ h)

theorem compareCell_inv (r : SE.CompareResult) (a t : ℤ) (h : CmpInv r) :
    CmpInv (SE.compareCell r a t) := by
  obtain ⟨f, tb, tr, fb, fr⟩ := r
  simp only [SE.compareCell, CmpInv] at h ⊢
  split_ifs <;> simp only [] <;> omega

theorem comparePure_inv (adult target : Mat) :
    CmpInv (SE.comparePure adult target) := by
  unfold SE.comparePure
  refine foldl_preserve CmpInv _ (fun r i hr => ?_) _ _ ?_
  · exact foldl_preserve CmpInv _ (fun r2 j h2 => compareCell_inv r2 _ _ h2)
      _ _ hr
  · exact ⟨rfl, le_refl 0, le_refl 0⟩

theorem compareCell_delta (r : SE.CompareResult) (a t : ℤ) :
    SE.compareCell r a t = addScaled r 1 (cdelta a t) := by
  obtain ⟨f, tb, tr, fb, fr⟩ := r
  simp only [SE.compareCell, cdelta, addScaled]
  split_ifs <;> simp only [SE.CompareResult.mk.injEq] <;> omega

theorem foldl_compareCell_const (a t : ℤ) :
    ∀ (k : ℕ) (r : SE.CompareResult),
      (List.range k).foldl (fun acc _ => SE.compareCell acc a t) r
        = addScaled r k (cdelta a t) := by
  intro k
  induction k with
  | zero => intro r; simp [addScaled]
  | succ n ih =>
    intro r
    rw [List.range_succ, List.foldl_append]
    rw [ih r, List.foldl_cons, List.foldl_nil, compareCell_delta]
    simp only [addScaled, SE.CompareResult.mk.injEq]
    push_cast
    refine ⟨by ring, by ring, by ring, by ring, by ring⟩

theorem foldl_addScaled_const (d : SE.CompareResult) (c : ℤ) :
    ∀ (k : ℕ) (r : SE.CompareResult),
      (List.range k).foldl (fun acc _ => addScaled acc c d) r
        = addScaled r (k * c) d := by
  intro k
  induction k with
  | zero => intro r; simp [addScaled]
  | succ n ih =>
    intro r
    rw [List.range_succ, List.foldl_append]
    rw [ih r, List.foldl_cons, List.foldl_nil]
    simp only [addScaled, SE.CompareResult.mk.injEq]
    push_cast
    refine ⟨by ring, by ring, by ring, by ring, by ring⟩

theorem matGet_replicate (n m : ℕ) (x : ℤ) (i j : ℕ) (hi : i < n)
    (hj : j < m) :
    matGet (List.replicate n (List.replicate m x)) i j = x := by
  simp [matGet, List.getD_eq_getElem?_getD, List.getElem?_replicate, hi, hj]

theorem comparePure_const (a t : ℤ) :
    SE.comparePure (List.replicate 60 (List.replicate 60 a))
      (List.replicate 60 (List.replicate 60 t))
      = addScaled ⟨0, 0, 0, 0, 0⟩ 3600 (cdelta a t) := by
  unfold SE.comparePure
  have inner : ∀ acc : SE.CompareResult, ∀ i ∈ List.range 60,
      (List.range 60).foldl (fun acc2 j => SE.compareCell acc2
        (matGet (List.replicate 60 (List.replicate 60 a)) i j)
        (matGet (List.replicate 60 (List.replicate 60 t)) i j)) acc
      = addScaled acc 60 (cdelta a t) := by
    intro acc i hi
    rw [List.foldl_ext _ (fun acc2 _ => SE.compareCell acc2 a t) acc
      (fun acc2 j hj => by
        rw [matGet_replicate _ _ _ _ _ (List.mem_range.mp hi)
            (List.mem_range.mp hj),
          matGet_replicate _ _ _ _ _ (List.mem_range.mp hi)
            (List.mem_range.mp hj)])]
    have h60 := foldl_compareCell_const a t 60 acc
    simpa using h60
  rw [List.foldl_ext _ (fun acc _ => addScaled acc 60 (cdelta a t)) _ inner]
  have h2 := foldl_addScaled_const (cdelta a t) 60 60 ⟨0, 0, 0, 0, 0⟩
  simpa using h2

theorem comparePure_white : SE.comparePure whiteMat whiteMat = ⟨0, 0, 0, 0, 0⟩ := by
  rw [whiteMat, comparePure_const]
  decide

theorem comparePure_blue : SE.comparePure blueMat blueMat = ⟨3600, 3600, 0, 0, 0⟩ := by
  rw [blueMat, comparePure_const]
  decide

theorem compare_eq_ok {adult target : Mat} {asz : ℕ} {s : RState}
    {r : SE.CompareResult} {s' : RState}
    (h : SE.compare adult target asz s = .ok (r, s')) :
    r = SE.comparePure adult target ∧ s' = s := by
  unfold SE.compare at h
  split at h
  · simp only [Except.ok.injEq, Prod.mk.injEq] at h
    exact ⟨h.1.symm, h.2.symm⟩
  · simp at h

theorem compare_ok_of_dims {adult target : Mat} (h1 : adult.length = 60)
    (h2 : (adult.headD []).length = 60) (h3 : target.length = 60)
    (h4 : (target.headD []).length = 60) (s : RState) :
    SE.compare adult target 60 s = .ok (SE.comparePure adult target, s) := by
  unfold SE.compare
  rw [if_pos]
  exact ⟨rfl, h1, h2, h3, h4⟩

theorem whiteMat_dims : whiteMat.length = 60 ∧ (whiteMat.headD []).length = 60
    := by decide

theorem blueMat_dims : blueMat.length = 60 ∧ (blueMat.headD []).length = 60
    := by decide

theorem threadMap_cons {α β : Type} (f : α → RState → β × RState) (a : α)
    (rest : List α) (s : RState) :
    threadMap f (a :: rest) s
      = ((f a s).1 :: (threadMap f rest (f a s).2).1,
          (threadMap f rest (f a s).2).2) := rfl

theorem threadMap_mem {α β : Type} (f : α → RState → β × RState)
    (Inv : RState → Prop) (P : β → Prop) :
    ∀ (l : List α) (s : RState), Inv s →
      (∀ a ∈ l, ∀ s0, Inv s0 → P (f a s0).1 ∧ Inv (f a s0).2) →
      (∀ b ∈ (threadMap f l s).1, P b) ∧ Inv (threadMap f l s).2 := by
  intro l
  induction l with
  | nil => intro s hs _; simpa [threadMap] using hs
  | cons a rest ih =>
    intro s hs hf
    obtain ⟨hPa, hInva⟩ := hf a (by simp) s hs
    obtain ⟨hPrest, hInvrest⟩ :=
      ih (f a s).2 hInva (fun x hx s0 h0 => hf x (by simp [hx]) s0 h0)
    rw [threadMap_cons]
    refine ⟨fun b hb => ?_, hInvrest⟩
    rcases List.mem_cons.mp hb with h | h
    · exact h ▸ hPa
    · exact hPrest b h

theorem SS_mutateCell_live (c : ℤ) (hc : c ≠ 0) (s : RState)
    (hs : ∀ x ∈ s.floats, x < 1) :
    (SS.mutateCell c 1 s).1 = 0
      ∧ ∀ x ∈ (SS.mutateCell c 1 s).2.floats, x < 1 := by
  have h1 : s.floats.headD 0 < 1 := by
    cases hf : s.floats with
    | nil => norm_num
    | cons x xs => exact hs x (by simp [hf])
  simp only [SS.mutateCell, randFloat, SS.white, SS.black]
  rw [if_pos h1, if_neg hc]
  constructor
  · simp
  · intro x hx
    exact hs x (List.mem_of_mem_tail (List.mem_of_mem_tail hx))

/-- C1 counterexample: mutate a single live (black = 1) cell with
`prob_mutation = 1`; the mutation draw 0 selects the cell and the coin draw
3/4 fails (`¬ 3/4 < 0.5`), so the claim predicts the cell stays live, but the
code leaves the zero-initialised output cell at 0 (background). -/
theorem SS_mutate_live_cell_counterexample :
    ¬ (mkRat 3 4 < mkRat 1 2)
      ∧ (SS.mutate_seed [[1]] 1 ⟨[0, mkRat 3 4], []⟩).1 = [[0]]
      ∧ (SS.mutate_seed [[1]] 1 ⟨[0, mkRat 3 4], []⟩).1 ≠ [[1]] := by decide

/-- C1 (amended): in the two-state `mutate_seed`, a background cell selected
for mutation becomes live exactly when the 0.5 coin draw succeeds (else it
stays background); a live cell selected for mutation becomes background
REGARDLESS of the coin draw (the zero-initialised `new_matrix` is never
written `black` in that branch); an unselected cell copies through; and
mutating an all-live seed with `prob_mutation = 1.0` turns every cell
background (none stays live). -/
theorem SS_mutate_seed_asymmetry :
    (∀ (pm : ℚ) (c : ℤ) (r1 r2 : ℚ) (fs : List ℚ) (il : List ℕ),
        r1 < pm → c = 0 →
        SS.mutateCell c pm ⟨r1 :: r2 :: fs, il⟩
          = ((if r2 < mkRat 1 2 then 1 else 0), ⟨fs, il⟩))
    ∧ (∀ (pm : ℚ) (c : ℤ) (r1 r2 : ℚ) (fs : List ℚ) (il : List ℕ),
        r1 < pm → c ≠ 0 →
        SS.mutateCell c pm ⟨r1 :: r2 :: fs, il⟩ = (0, ⟨fs, il⟩))
    ∧ (∀ (pm : ℚ) (c : ℤ) (r1 : ℚ) (fs : List ℚ) (il : List ℕ),
        ¬ r1 < pm →
        SS.mutateCell c pm ⟨r1 :: fs, il⟩ = (c, ⟨fs, il⟩))
    ∧ (∀ (seed : Mat) (s : RState), (∀ x ∈ s.floats, x < 1) →
        (∀ i j, i < seed.length → j < (seed.headD []).length →
          matGet seed i j ≠ 0) →
        ∀ row ∈ (SS.mutate_seed seed 1 s).1, ∀ c ∈ row, c = 0) := by
  refine ⟨?_, ?_, ?_, ?_⟩
  · intro pm c r1 r2 fs il h1 h2
    simp [SS.mutateCell, randFloat, SS.white, SS.black, h1, h2]
  · intro pm c r1 r2 fs il h1 h2
    simp [SS.mutateCell, randFloat, SS.white, SS.black, h1, h2]
  · intro pm c r1 fs il h1
    simp [SS.mutateCell, randFloat, h1]
  · intro seed s hs hseed
    have key := threadMap_mem
      (fun i => threadMap (fun j => SS.mutateCell (matGet seed i j) 1)
        (List.range ((seed.headD []).length)))
      (fun s0 => ∀ x ∈ s0.floats, x < 1)
      (fun row => ∀ c ∈ row, c = 0)
      (List.range seed.length) s hs ?_
    · exact key.1
    · intro i hi s0 h0
      exact threadMap_mem (fun j => SS.mutateCell (matGet seed i j) 1)
        (fun s1 => ∀ x ∈ s1.floats, x < 1) (fun c => c = 0)
        (List.range ((seed.headD []).length)) s0 h0
        (fun j hj s1 h1 =>
          SS_mutateCell_live (matGet seed i j)
            (hseed i j (List.mem_range.mp hi) (List.mem_range.mp hj)) s1 h1)

/-- C1 witness: the amended live-cell clause at a concrete input — cell 1,
`prob_mutation = 1`, mutation draw 0, coin draw 3/5 — yields background. -/
theorem SS_mutate_seed_asymmetry_witness :
    SS.mutateCell 1 1 ⟨[0, mkRat 3 5], []⟩ = (0, ⟨[], []⟩) :=
  SS_mutate_seed_asymmetry.2.1 1 1 0 (mkRat 3 5) [] [] (by norm_num) (by decide)

theorem randRange_pos {n : ℕ} (hn : 0 < n) (s : RState) :
    randRange n s = .ok (s.ints.headD 0 % n, ⟨s.floats, s.ints.tail⟩) := by
  unfold randRange
  rw [if_neg hn.ne']

theorem tail_drop_eq {α : Type _} (l : List α) (k : ℕ) :
    (l.tail).drop k = l.drop (k + 1) := by
  rw [← List.drop_one, List.drop_drop, Nat.add_comm]

theorem sampleLoop_eq (pop : List Member) (hp : 0 < pop.length) :
    ∀ (n : ℕ) (st : ℕ × ℤ × ℕ × ℤ) (s : RState),
      SE.sampleLoop pop n st s
        = .ok (samplePosP pop n s.ints st, ⟨s.floats, s.ints.drop n⟩) := by
  intro n
  induction n with
  | zero => intro st s; simp [SE.sampleLoop, samplePosP]
  | succ k ih =>
    intro st s
    obtain ⟨lp, lv, mp, mv⟩ := st
    simp only [SE.sampleLoop, randRange_pos hp]
    rw [ih]
    simp only [samplePosP, tail_drop_eq]

theorem samplePosP_lt (pop : List Member) (hp : 0 < pop.length) :
    ∀ (n : ℕ) (draws : List ℕ) (st : ℕ × ℤ × ℕ × ℤ),
      st.1 < pop.length → st.2.2.1 < pop.length →
      (samplePosP pop n draws st).1 < pop.length
        ∧ (samplePosP pop n draws st).2.2.1 < pop.length := by
  intro n
  induction n with
  | zero => intro draws st h1 h2; exact ⟨h1, h2⟩
  | succ k ih =>
    intro draws st h1 h2
    obtain ⟨lp, lv, mp, mv⟩ := st
    simp only [samplePosP]
    refine ih draws.tail _ ?_ ?_
    · split_ifs <;> simp_all [Nat.mod_lt _ hp]
    · split_ifs <;> simp_all [Nat.mod_lt _ hp]

theorem selPositions_lt (pop : List Member) (hp : 0 < pop.length)
    (sample_size : ℕ) (draws : List ℕ) :
    (selPositions pop sample_size draws).1 < pop.length
      ∧ (selPositions pop sample_size draws).2 < pop.length := by
  unfold selPositions
  exact samplePosP_lt pop hp sample_size draws.tail.tail _
    (Nat.mod_lt _ hp) (Nat.mod_lt _ hp)

theorem threadMapE_ints {α β : Type} (f : α → RState → Except PyErr (β × RState))
    (hf : ∀ a s b s', f a s = .ok (b, s') → s'.ints = s.ints) :
    ∀ (l : List α) (s : RState) (bs : List β) (s' : RState),
      threadMapE f l s = .ok (bs, s') → s'.ints = s.ints := by
  intro l
  induction l with
  | nil =>
    intro s bs s' h
    simp only [threadMapE, Except.ok.injEq, Prod.mk.injEq] at h
    rw [← h.2]
  | cons a rest ih =>
    intro s bs s' h
    simp only [threadMapE] at h
    split at h
    · simp at h
    · rename_i b s1 hfa
      split at h
      · simp at h
      · rename_i bs2 s2 hrest
        simp only [Except.ok.injEq, Prod.mk.injEq] at h
        rw [← h.2, ih s1 bs2 s2 hrest, hf a s b s1 hfa]

theorem SE_mutateCell_ints (c : ℤ) (pm : ℚ) (s : RState) (b : ℤ) (s' : RState)
    (h : SE.mutateCell c pm s = .ok (b, s')) : s'.ints = s.ints := by
  simp only [SE.mutateCell, randFloat] at h
  split_ifs at h <;>
    simp only [Except.ok.injEq, Prod.mk.injEq] at h <;> rw [← h.2]

theorem SE_mutate_seed_ints (seed : Mat) (pm : ℚ) (s : RState) (m : Mat)
    (s' : RState) (h : SE.mutate_seed seed pm s = .ok (m, s')) :
    s'.ints = s.ints := by
  unfold SE.mutate_seed at h
  refine threadMapE_ints _ (fun a s0 b s0' h0 => ?_) _ _ _ _ h
  exact threadMapE_ints _ (fun a2 s2 b2 s2' h2 =>
    SE_mutateCell_ints _ _ _ _ _ h2) _ _ _ _ h0

theorem mutate_and_select_eq (pop : List Member) (sample_size : ℕ)
    (target : Mat) (pm : ℚ) (s : RState) (hss : sample_size ≤ pop.length)
    (hp : 0 < pop.length) :
    SE.mutate_and_select_seed pop sample_size target pm s
      = (let lp := (selPositions pop sample_size s.ints).1
         let mp := (selPositions pop sample_size s.ints).2
         let newPop := pop.set lp
           { pop.getD lp default with seed := (pop.getD mp default).seed }
         match SE.mutate_seed ((newPop.getD lp default).seed) pm
           ⟨s.floats, s.ints.drop (2 + sample_size)⟩ with
         | .error e => .error e
         | .ok (m, s') => .ok ((newPop, m), s')) := by
  unfold SE.mutate_and_select_seed
  rw [if_pos hss]
  simp only [randRange_pos hp]
  rw [sampleLoop_eq pop hp]
  simp only [selPositions, samplePosP]
  have hdrop : (s.ints.tail.tail).drop sample_size
      = s.ints.drop (2 + sample_size) := by
    rw [tail_drop_eq, tail_drop_eq]
    congr 1
    omega
  rw [hdrop]

/-- C2: for every population, sample size, target, mutation probability and
draw sequence, a normally-returning `mutate_and_select_seed` call consumes
exactly 2 + sample_size index draws, overwrites only the seed field of the
slot its own sampling found least fit (with the seed of the slot it found
most fit), leaves that slot's adult and fitness and every other slot
unchanged, and returns the mutated copy of the sampled most-fit seed. -/
theorem SE_mutate_and_select_seed_frame :
    ∀ (pop : List Member) (sample_size : ℕ) (target : Mat) (pm : ℚ)
      (s : RState) (pop' : List Member) (ret : Mat) (s' : RState),
      SE.mutate_and_select_seed pop sample_size target pm s
        = .ok ((pop', ret), s') →
      pop' = pop.set (selPositions pop sample_size s.ints).1
          { pop.getD (selPositions pop sample_size s.ints).1 default with
            seed := (pop.getD (selPositions pop sample_size s.ints).2
              default).seed }
        ∧ (pop'.getD (selPositions pop sample_size s.ints).1 default).seed
            = (pop.getD (selPositions pop sample_size s.ints).2 default).seed
        ∧ (pop'.getD (selPositions pop sample_size s.ints).1 default).adult
            = (pop.getD (selPositions pop sample_size s.ints).1 default).adult
        ∧ (pop'.getD (selPositions pop sample_size s.ints).1 default).fitness
            = (pop.getD (selPositions pop sample_size s.ints).1
                default).fitness
        ∧ (∀ k, k ≠ (selPositions pop sample_size s.ints).1 →
            pop'.getD k default = pop.getD k default)
        ∧ pop'.length = pop.length
        ∧ s'.ints = s.ints.drop (2 + sample_size)
        ∧ SE.mutate_seed
            ((pop.getD (selPositions pop sample_size s.ints).2 default).seed)
            pm ⟨s.floats, s.ints.drop (2 + sample_size)⟩ = .ok (ret, s') := by
  intro pop sample_size target pm s pop' ret s' hok
  by_cases hss : sample_size ≤ pop.length
  · by_cases hp0 : pop.length = 0
    · unfold SE.mutate_and_select_seed at hok
      rw [if_pos hss] at hok
      unfold randRange at hok
      rw [if_pos hp0] at hok
      simp at hok
    · have hp : 0 < pop.length := Nat.pos_of_ne_zero hp0
      rw [mutate_and_select_eq pop sample_size target pm s hss hp] at hok
      have hlp := (selPositions_lt pop hp sample_size s.ints).1
      set lp := (selPositions pop sample_size s.ints).1 with hlpdef
      set mp := (selPositions pop sample_size s.ints).2 with hmpdef
      simp only at hok
      rw [getD_set_self _ _ _ _ hlp] at hok
      split at hok
      · simp at hok
      · rename_i m s2 hms
        simp only [Except.ok.injEq, Prod.mk.injEq] at hok
        obtain ⟨⟨hpop, hret⟩, hs2⟩ := hok
        subst hpop hret hs2
        have hints := SE_mutate_seed_ints _ _ _ _ _ hms
        refine ⟨rfl, ?_, ?_, ?_, ?_, by simp, ?_, hms⟩
        · rw [getD_set_self _ _ _ _ hlp]
        · rw [getD_set_self _ _ _ _ hlp]
        · rw [getD_set_self _ _ _ _ hlp]
        · intro k hk
          exact getD_set_ne _ _ _ (fun hh => hk hh.symm)
        · rw [hints]
  · unfold SE.mutate_and_select_seed at hok
    rw [if_neg hss] at hok
    simp at hok

/-- C2 witness: the final conjunct instantiated at a one-member population
with `sample_size = 0` and `prob_mutation = 0` (the mutated copy is the
most-fit seed itself, no cell being selected for mutation). -/
theorem SE_mutate_and_select_seed_frame_witness :
    SE.mutate_seed
        (([(⟨[[1]], [[1]], 5⟩ : Member)].getD
          (selPositions [⟨[[1]], [[1]], 5⟩] 0 ([] : List ℕ)).2 default).seed)
        0 ⟨[], List.drop (2 + 0) ([] : List ℕ)⟩
      = .ok ([[1]], ⟨[], []⟩) :=
  (SE_mutate_and_select_seed_frame [⟨[[1]], [[1]], 5⟩] 0 [] 0 ⟨[], []⟩
    [⟨[[1]], [[1]], 5⟩] [[1]] ⟨[], []⟩ (by decide)).2.2.2.2.2.2.2

/-- C9: the `target` parameter of `mutate_and_select_seed` is vestigial —
two calls differing only in the target grid return the same value and leave
every piece of state identical. -/
theorem SE_mutate_and_select_seed_target_irrelevant :
    ∀ (pop : List Member) (sample_size : ℕ) (t1 t2 : Mat) (pm : ℚ)
      (s : RState),
      SE.mutate_and_select_seed pop sample_size t1 pm s
        = SE.mutate_and_select_seed pop sample_size t2 pm s := by
  intro pop sample_size t1 t2 pm s
  rfl

theorem evoStep_eq (population_size sample_size : ℕ) (pm : ℚ)
    (adult_size : ℕ) (target : Mat) (grow : Mat → Mat) (pop : List Member)
    (s : RState) (hps : 0 < population_size) :
    SE.evoStep population_size sample_size pm adult_size target grow pop s
      = (match SE.mutate_and_select_seed pop sample_size target pm
          ⟨s.floats, s.ints.tail.tail⟩ with
        | .error e => .error e
        | .ok ((popMid, newSeed), s1) =>
          match SE.compare (grow newSeed) target adult_size s1 with
          | .error e => .error e
          | .ok (r, s2) =>
            .ok (popMid.set
              (if (pop.getD (s.ints.headD 0 % population_size)
                    default).fitness
                  > (pop.getD (s.ints.tail.headD 0 % population_size)
                    default).fitness
                then s.ints.tail.headD 0 % population_size
                else s.ints.headD 0 % population_size)
              ⟨newSeed, grow newSeed, r.fitness⟩, s2)) := by
  unfold SE.evoStep
  simp only [randRange_pos hps]
  by_cases hfc : (pop.getD (s.ints.headD 0 % population_size)
        default).fitness
      > (pop.getD (s.ints.tail.headD 0 % population_size) default).fitness
  all_goals
    first
    | rw [if_pos hfc]
    | rw [if_neg hfc]
  all_goals
    cases hm : SE.mutate_and_select_seed pop sample_size target pm
        ⟨s.floats, s.ints.tail.tail⟩ with
    | error e => simp only [hm]
    | ok p =>
      obtain ⟨⟨popMid, newSeed⟩, s1⟩ := p
      cases hc : SE.compare (grow newSeed) target adult_size s1 with
      | error e => simp only [hm, hc]
      | ok q =>
        obtain ⟨r, s2⟩ := q
        have hr := (compare_eq_ok hc).1
        have hinv : CmpInv r := by rw [hr]; exact comparePure_inv _ _
        simp only [hm, hc]
        rw [if_pos hinv.1]
        first
        | rw [if_pos hfc]
        | rw [if_neg hfc]

/-- C3 (amended): each steady-state birth overwrites the drawn slot with the
strictly smaller stored fitness, but when the two drawn fitnesses are exactly
equal the `else` branch runs and the FIRST-drawn index's slot is the one
overwritten (not the second-drawn as claimed). -/
theorem SE_evoStep_loser :
    (∀ (population_size sample_size : ℕ) (pm : ℚ) (adult_size : ℕ)
      (target : Mat) (grow : Mat → Mat) (pop : List Member) (s : RState),
      0 < population_size →
      SE.evoStep population_size sample_size pm adult_size target grow pop s
        = (match SE.mutate_and_select_seed pop sample_size target pm
            ⟨s.floats, s.ints.tail.tail⟩ with
          | .error e => .error e
          | .ok ((popMid, newSeed), s1) =>
            match SE.compare (grow newSeed) target adult_size s1 with
            | .error e => .error e
            | .ok (r, s2) =>
              .ok (popMid.set
                (if (pop.getD (s.ints.headD 0 % population_size)
                      default).fitness
                    > (pop.getD (s.ints.tail.headD 0 % population_size)
                      default).fitness
                  then s.ints.tail.headD 0 % population_size
                  else s.ints.headD 0 % population_size)
                ⟨newSeed, grow newSeed, r.fitness⟩, s2)))
    ∧ (∀ (pop : List Member) (position1 position2 : ℕ),
        (pop.getD position1 default).fitness
          = (pop.getD position2 default).fitness →
        (if (pop.getD position1 default).fitness
            > (pop.getD position2 default).fitness
          then position2 else position1) = position1) := by
  constructor
  · intro population_size sample_size pm adult_size target grow pop s hps
    exact evoStep_eq population_size sample_size pm adult_size target grow
      pop s hps
  · intro pop position1 position2 heq
    rw [if_neg (by omega)]

/-- C3 witness: the tie clause at a concrete input — drawn indices 5 and 9
over the empty population (both stored fitnesses read 0), the overwritten
index is the first-drawn 5. -/
theorem SE_evoStep_loser_witness :
    (if (([] : List Member).getD 5 default).fitness
        > (([] : List Member).getD 9 default).fitness
      then 9 else 5) = 5 :=
  SE_evoStep_loser.2 [] 5 9 rfl

/-- C3 counterexample: a birth draws indices 0 then 1 whose stored fitnesses
are exactly equal; the run overwrites slot 0 (the FIRST-drawn index) with the
new triple and leaves the second-drawn slot 1 untouched, contradicting the
claim that the second-drawn slot is the one overwritten on ties. -/
theorem SE_evoStep_tie_counterexample :
    ((⟨[[1]], whiteMat, 0⟩ : Member).fitness
        = (⟨[[2]], whiteMat, 0⟩ : Member).fitness)
    ∧ SE.evoStep 2 0 0 60 blueMat (fun _ => blueMat)
        [⟨[[1]], whiteMat, 0⟩, ⟨[[2]], whiteMat, 0⟩] ⟨[], [0, 1]⟩
      = .ok ([⟨[[1]], blueMat, 3600⟩, ⟨[[2]], whiteMat, 0⟩], ⟨[], []⟩)
    ∧ [⟨[[1]], blueMat, 3600⟩, ⟨[[2]], whiteMat, 0⟩].getD 1 default
        = (⟨[[2]], whiteMat, 0⟩ : Member)
    ∧ [⟨[[1]], blueMat, 3600⟩, ⟨[[2]], whiteMat, 0⟩].getD 0 default
        ≠ (⟨[[1]], whiteMat, 0⟩ : Member) := by
  refine ⟨rfl, ?_, rfl, by decide⟩
  rw [evoStep_eq 2 0 0 60 blueMat (fun _ => blueMat)
    [⟨[[1]], whiteMat, 0⟩, ⟨[[2]], whiteMat, 0⟩] ⟨[], [0, 1]⟩ (by norm_num)]
  have hm : SE.mutate_and_select_seed
      [⟨[[1]], whiteMat, 0⟩, ⟨[[2]], whiteMat, 0⟩] 0 blueMat 0 ⟨[], []⟩
      = .ok (([⟨[[1]], whiteMat, 0⟩, ⟨[[2]], whiteMat, 0⟩], [[1]]),
          ⟨[], []⟩) := by decide
  simp only [List.tail_cons, hm,
    compare_ok_of_dims blueMat_dims.1 blueMat_dims.2 blueMat_dims.1
      blueMat_dims.2, comparePure_blue]
  norm_num [List.headD_cons, List.getD_cons_zero, List.getD_cons_succ]

/-- C5: per cell, the three-state `compare` awards +1 when adult and target
hold the same live colour (blue-on-blue or red-on-red), −1 when they hold
opposing live colours, and leaves all five counters unchanged whenever either
cell is background; every normally-returned quintuple satisfies
`fitness = true_blue + true_red + false_blue + false_red` with both false
counters non-positive. -/
theorem SE_compare_cell_scores :
    (∀ r : SE.CompareResult,
        (SE.compareCell r 2 2).fitness = r.fitness + 1
        ∧ (SE.compareCell r 1 1).fitness = r.fitness + 1
        ∧ (SE.compareCell r 2 1).fitness = r.fitness - 1
        ∧ (SE.compareCell r 1 2).fitness = r.fitness - 1)
    ∧ (∀ (r : SE.CompareResult) (a t : ℤ), a = 0 ∨ t = 0 →
        SE.compareCell r a t = r)
    ∧ (∀ (adult target : Mat) (adult_size : ℕ) (s : RState)
        (r : SE.CompareResult) (s' : RState),
        SE.compare adult target adult_size s = .ok (r, s') →
        r.fitness = r.true_blue + r.true_red + r.false_blue + r.false_red
          ∧ r.false_blue ≤ 0 ∧ r.false_red ≤ 0) := by
  refine ⟨?_, ?_, ?_⟩
  · intro r
    obtain ⟨f, tb, tr, fb, fr⟩ := r
    refine ⟨?_, ?_, ?_, ?_⟩ <;> simp [SE.compareCell, SE.blue, SE.red]
  · intro r a t h
    rcases h with h | h <;> subst h <;>
      simp [SE.compareCell, SE.blue, SE.red]
  · intro adult target adult_size s r s' h
    have hr := (compare_eq_ok h).1
    rw [hr]
    exact comparePure_inv adult target

/-- C5 witness: the quintuple clause at a concrete call — comparing the
all-background 60×60 grid with itself returns the zero quintuple, which
satisfies the decomposition with non-positive false counters. -/
theorem SE_compare_cell_scores_witness :
    ((⟨0, 0, 0, 0, 0⟩ : SE.CompareResult).fitness
        = (⟨0, 0, 0, 0, 0⟩ : SE.CompareResult).true_blue
          + (⟨0, 0, 0, 0, 0⟩ : SE.CompareResult).true_red
          + (⟨0, 0, 0, 0, 0⟩ : SE.CompareResult).false_blue
          + (⟨0, 0, 0, 0, 0⟩ : SE.CompareResult).false_red)
      ∧ (⟨0, 0, 0, 0, 0⟩ : SE.CompareResult).false_blue ≤ 0
      ∧ (⟨0, 0, 0, 0, 0⟩ : SE.CompareResult).false_red ≤ 0 :=
  SE_compare_cell_scores.2.2 whiteMat whiteMat 60 ⟨[], []⟩ ⟨0, 0, 0, 0, 0⟩
    ⟨[], []⟩
    (by rw [compare_ok_of_dims whiteMat_dims.1 whiteMat_dims.2 whiteMat_dims.1
        whiteMat_dims.2, comparePure_white])

theorem lastMax_eq_none {l : List Member} (h : lastMax l = none) : l = [] := by
  cases l with
  | nil => rfl
  | cons c cs => cases h2 : lastMax cs <;> simp [lastMax, h2] at h

theorem getLast_orderedInsert :
    ∀ (l : List Member),
      l.Sorted (fun a b : Member => a.fitness ≤ b.fitness) →
      ∀ c : Member,
      (List.orderedInsert (fun a b => a.fitness ≤ b.fitness) c l).getLast?
        = some (match l.getLast? with
            | none => c
            | some m => if c.fitness ≤ m.fitness then m else c) := by
  intro l
  induction l with
  | nil => intro _ c; rfl
  | cons b bs ih =>
    intro hsort c
    by_cases hcb : c.fitness ≤ b.fitness
    · rw [List.orderedInsert_of_le (fun a b : Member => a.fitness ≤ b.fitness)
        bs hcb]
      have hlast : ∀ m, (b :: bs).getLast? = some m → c.fitness ≤ m.fitness
          := by
        intro m hm
        rcases List.mem_cons.mp (List.mem_of_getLast?_eq_some hm) with h | h
        · exact h ▸ hcb
        · exact le_trans hcb (List.rel_of_sorted_cons hsort m h)
      cases hgl : (b :: bs).getLast? with
      | none => simp at hgl
      | some m =>
        have h2 : (c :: b :: bs).getLast? = some m := by
          rw [List.getLast?_cons_cons]; exact hgl
        rw [h2]
        show some m = some (if c.fitness ≤ m.fitness then m else c)
        rw [if_pos (hlast m hgl)]
    · have hne : List.orderedInsert (fun a b => a.fitness ≤ b.fitness) c bs
          ≠ [] := by
        intro hnil
        have hlen := List.orderedInsert_length
          (fun a b : Member => a.fitness ≤ b.fitness) bs c
        rw [hnil] at hlen
        simp at hlen
      rw [List.orderedInsert, if_neg hcb]
      have hcons : (b :: List.orderedInsert
          (fun a b => a.fitness ≤ b.fitness) c bs).getLast?
          = (List.orderedInsert (fun a b => a.fitness ≤ b.fitness) c
              bs).getLast? := by
        rw [List.getLast?_cons]
        cases hX : List.orderedInsert (fun a b => a.fitness ≤ b.fitness) c bs
            with
        | nil => exact absurd hX hne
        | cons x xs => rw [List.getLast?_cons]; cases (xs.getLast?) <;> rfl
      rw [hcons, ih hsort.of_cons c]
      cases hbs : bs.getLast? with
      | none =>
        have hbsnil : bs = [] := List.getLast?_eq_none_iff.mp hbs
        subst hbsnil
        simp [if_neg hcb]
      | some m =>
        have h3 : (b :: bs).getLast? = some m := by
          rw [List.getLast?_cons, hbs]; rfl
        rw [h3]

theorem getLast_insertionSort :
    ∀ l : List Member,
      (List.insertionSort (fun a b => a.fitness ≤ b.fitness) l).getLast?
        = lastMax l := by
  intro l
  induction l with
  | nil => rfl
  | cons c cs ih =>
    rw [List.insertionSort]
    rw [getLast_orderedInsert _
      (List.sorted_insertionSort (fun a b : Member => a.fitness ≤ b.fitness)
        cs) c]
    rw [ih]
    cases h : lastMax cs with
    | none => simp [lastMax, h]
    | some b =>
      show some (if c.fitness ≤ b.fitness then b else c) = lastMax (c :: cs)
      have h2 : lastMax (c :: cs)
          = some (if c.fitness > b.fitness then c else b) := by
        simp [lastMax, h]
      rw [h2]
      by_cases hb : c.fitness ≤ b.fitness
      · rw [if_pos hb, if_neg (by omega)]
      · rw [if_neg hb, if_pos (by omega)]

theorem lastMax_spec :
    ∀ (l : List Member) (b : Member), lastMax l = some b →
      b ∈ l ∧ (∀ c ∈ l, c.fitness ≤ b.fitness)
        ∧ (l.filter (fun c => c.fitness = b.fitness)).getLast? = some b := by
  intro l
  induction l with
  | nil => intro b h; simp [lastMax] at h
  | cons c cs ih =>
    intro b h
    cases h2 : lastMax cs with
    | none =>
      have hnil := lastMax_eq_none h2
      subst hnil
      have hb : b = c := by
        simp [lastMax] at h
        exact h.symm
      subst hb
      refine ⟨by simp, by simp, ?_⟩
      simp [List.filter]
    | some m =>
      obtain ⟨hmem, hbnd, hflt⟩ := ih m h2
      by_cases hcm : c.fitness > m.fitness
      · have hb : b = c := by
          simp [lastMax, h2, if_pos hcm] at h
          exact h.symm
        subst hb
        refine ⟨List.mem_cons_self _ _, ?_, ?_⟩
        · intro x hx
          rcases List.mem_cons.mp hx with hx | hx
          · exact hx ▸ le_refl _
          · exact le_trans (hbnd x hx) (le_of_lt hcm)
        · have hnone : cs.filter (fun x => decide (x.fitness = b.fitness))
              = [] := by
            rw [List.filter_eq_nil_iff]
            intro x hx
            have hxb := hbnd x hx
            simp only [decide_eq_true_eq]
            omega
          rw [List.filter_cons, if_pos (by simp), hnone]
          rfl
      · have hb : b = m := by
          simp [lastMax, h2, if_neg hcm] at h
          exact h.symm
        subst hb
        refine ⟨List.mem_cons_of_mem _ hmem, ?_, ?_⟩
        · intro x hx
          rcases List.mem_cons.mp hx with hx | hx
          · subst hx; omega
          · exact hbnd x hx
        · rw [List.filter_cons]
          by_cases hceq : c.fitness = b.fitness
          · rw [if_pos (by simp [hceq])]
            have hne : cs.filter (fun x => decide (x.fitness = b.fitness))
                ≠ [] := by
              intro hh
              rw [hh] at hflt
              simp at hflt
            rw [List.getLast?_cons, hflt]
            rfl
          · rw [if_neg (by simp [hceq]), hflt]

theorem compare_white (s : RState) :
    SE.compare whiteMat whiteMat 60 s = .ok (⟨0, 0, 0, 0, 0⟩, s) := by
  rw [compare_ok_of_dims whiteMat_dims.1 whiteMat_dims.2 whiteMat_dims.1
    whiteMat_dims.2, comparePure_white]

/-- C4: bootstrap builds exactly `population_size` members, and each slot's
member is a maximal-fitness candidate of its sample set; under the stable
ascending sort with `sorted_samples[-1]`, ties on the maximal fitness are won
by the last-drawn candidate. -/
theorem SE_bootstrap_best_of_sample :
    (∀ (grow : Mat → Mat) (prob_red prob_blue : ℚ)
        (evolvability adult_size sample_size : ℕ) (target : Mat) (n : ℕ)
        (s : RState) (pops : List Member) (s' : RState),
        SE.bootstrap grow prob_red prob_blue evolvability adult_size
            sample_size target n s = .ok (pops, s') →
        pops.length = n)
    ∧ (∀ (grow : Mat → Mat) (prob_red prob_blue : ℚ)
        (evolvability adult_size sample_size : ℕ) (target : Mat) (s : RState)
        (samples : List Member) (s₁ : RState),
        SE.sampleSet grow prob_red prob_blue evolvability adult_size target
            sample_size s = .ok (samples, s₁) →
        samples ≠ [] →
        ∃ best, SE.bootstrapSlot grow prob_red prob_blue evolvability
              adult_size sample_size target s = .ok (best, s₁)
          ∧ best ∈ samples
          ∧ (∀ c ∈ samples, c.fitness ≤ best.fitness)
          ∧ (samples.filter (fun c => c.fitness = best.fitness)).getLast?
              = some best) := by
  constructor
  · intro grow pr pb evo asz ss target n
    induction n with
    | zero =>
      intro s pops s' h
      simp only [SE.bootstrap, Except.ok.injEq, Prod.mk.injEq] at h
      rw [← h.1]
      rfl
    | succ k ih =>
      intro s pops s' h
      simp only [SE.bootstrap] at h
      split at h
      · simp at h
      · rename_i best s1 hslot
        split at h
        · simp at h
        · rename_i rest s2 hrest
          simp only [Except.ok.injEq, Prod.mk.injEq] at h
          rw [← h.1]
          simp [ih s1 rest s2 hrest]
  · intro grow pr pb evo asz ss target s samples s₁ hset hne
    unfold SE.bootstrapSlot
    rw [hset]
    cases hlm : lastMax samples with
    | none => exact absurd (lastMax_eq_none hlm) hne
    | some best =>
      obtain ⟨hmem, hbnd, hflt⟩ := lastMax_spec samples best hlm
      refine ⟨best, ?_, hmem, hbnd, hflt⟩
      dsimp only
      rw [getLast_insertionSort, hlm]

/-- C4 witness: a one-candidate sample set at a concrete configuration — the
slot receives that candidate, which is maximal and the last max-attaining
element of the sample. -/
theorem SE_bootstrap_best_of_sample_witness :
    ∃ best, SE.bootstrapSlot (fun _ => whiteMat) 0 0 1 60 1 whiteMat
          ⟨[], []⟩ = .ok (best, ⟨[], []⟩)
      ∧ best ∈ [(⟨[[0]], whiteMat, 0⟩ : Member)]
      ∧ (∀ c ∈ [(⟨[[0]], whiteMat, 0⟩ : Member)], c.fitness ≤ best.fitness)
      ∧ ([(⟨[[0]], whiteMat, 0⟩ : Member)].filter
          (fun c => c.fitness = best.fitness)).getLast? = some best :=
  SE_bootstrap_best_of_sample.2 (fun _ => whiteMat) 0 0 1 60 1 whiteMat
    ⟨[], []⟩ [⟨[[0]], whiteMat, 0⟩] ⟨[], []⟩
    (by
      show SE.sampleSet (fun _ => whiteMat) 0 0 1 60 whiteMat (0 + 1)
          ⟨[], []⟩ = .ok ([⟨[[0]], whiteMat, 0⟩], ⟨[], []⟩)
      have hms : SE.make_seed_matrix 0 0 1 ⟨[], []⟩ = ([[0]], ⟨[], []⟩) := by
        decide
      simp only [SE.sampleSet, hms, compare_white]
      norm_num)
    (by simp)

theorem finalLoop_eq (target : Mat) (hT1 : target.length = 60)
    (hT2 : (target.headD []).length = 60) :
    ∀ (l : List Member),
      (∀ m ∈ l, m.adult.length = 60 ∧ (m.adult.headD []).length = 60) →
      ∀ (bf : ℤ) (best : Option (Mat × Mat)) (s : RState),
        SE.finalLoop target 60 l bf best s
          = .ok (bestScan target l bf best, s) := by
  intro l
  induction l with
  | nil => intro _ bf best s; rfl
  | cons m rest ih =>
    intro hall bf best s
    have hm := hall m (List.mem_cons_self m rest)
    simp only [SE.finalLoop, bestScan]
    rw [compare_ok_of_dims hm.1 hm.2 hT1 hT2]
    dsimp only
    by_cases hgt : (SE.comparePure m.adult target).fitness > bf
    · rw [if_pos hgt, if_pos (comparePure_inv m.adult target).1, if_pos hgt]
      exact ih (fun x hx => hall x (List.mem_cons_of_mem m hx)) _ _ s
    · rw [if_neg hgt, if_neg hgt]
      exact ih (fun x hx => hall x (List.mem_cons_of_mem m hx)) _ _ s

theorem bestScan_stay (target : Mat) :
    ∀ (l : List Member) (bf : ℤ) (best : Option (Mat × Mat)),
      (∀ x ∈ l, (SE.comparePure x.adult target).fitness ≤ bf) →
      bestScan target l bf best = (bf, best) := by
  intro l
  induction l with
  | nil => intro bf best _; rfl
  | cons m rest ih =>
    intro bf best hall
    have hm := hall m (List.mem_cons_self m rest)
    simp only [bestScan]
    rw [if_neg (by omega)]
    exact ih bf best (fun x hx => hall x (List.mem_cons_of_mem m hx))

theorem le_foldl_max (target : Mat) :
    ∀ (l : List Member) (a : ℤ),
      a ≤ l.foldl
        (fun a m => max a (SE.comparePure m.adult target).fitness) a := by
  intro l
  induction l with
  | nil => intro a; simp
  | cons m rest ih =>
    intro a
    simp only [List.foldl_cons]
    exact le_trans (le_max_left _ _) (ih _)

theorem mem_le_foldl_max (target : Mat) :
    ∀ (l : List Member) (a : ℤ) (x : Member), x ∈ l →
      (SE.comparePure x.adult target).fitness
        ≤ l.foldl (fun a m => max a (SE.comparePure m.adult target).fitness)
            a := by
  intro l
  induction l with
  | nil => intro a x hx; simp at hx
  | cons m rest ih =>
    intro a x hx
    simp only [List.foldl_cons]
    rcases List.mem_cons.mp hx with h | h
    · subst h
      exact le_trans (le_max_right _ _) (le_foldl_max target rest _)
    · exact ih _ x h

theorem foldl_max_mono (target : Mat) :
    ∀ (l : List Member) (a b : ℤ), a ≤ b →
      l.foldl (fun a m => max a (SE.comparePure m.adult target).fitness) a
        ≤ l.foldl (fun a m => max a (SE.comparePure m.adult target).fitness)
            b := by
  intro l
  induction l with
  | nil => intro a b h; simpa using h
  | cons m rest ih =>
    intro a b h
    simp only [List.foldl_cons]
    exact ih _ _ (max_le_max h (le_refl _))

theorem bestScan_fst (target : Mat) :
    ∀ (l : List Member) (bf : ℤ) (best : Option (Mat × Mat)),
      (bestScan target l bf best).1
        = l.foldl (fun a m => max a (SE.comparePure m.adult target).fitness)
            bf := by
  intro l
  induction l with
  | nil => intro bf best; rfl
  | cons m rest ih =>
    intro bf best
    simp only [bestScan, List.foldl_cons]
    by_cases hgt : (SE.comparePure m.adult target).fitness > bf
    · rw [if_pos hgt, ih, max_eq_right (le_of_lt hgt)]
    · rw [if_neg hgt, ih, max_eq_left (by omega)]

theorem bestScan_snd (target : Mat) :
    ∀ (l : List Member) (bf : ℤ) (best : Option (Mat × Mat)),
      bf < l.foldl (fun a m => max a (SE.comparePure m.adult target).fitness)
          bf →
      ∃ m₀, l.find? (fun m => (SE.comparePure m.adult target).fitness
            = l.foldl
              (fun a m => max a (SE.comparePure m.adult target).fitness) bf)
          = some m₀
        ∧ (SE.comparePure m₀.adult target).fitness
            = l.foldl
              (fun a m => max a (SE.comparePure m.adult target).fitness) bf
        ∧ (bestScan target l bf best).2 = some (m₀.seed, m₀.adult) := by
  intro l
  induction l with
  | nil => intro bf best h; simp at h
  | cons m rest ih =>
    intro bf best h
    simp only [List.foldl_cons] at h ⊢
    by_cases hgt : (SE.comparePure m.adult target).fitness > bf
    · have hmaxf : max bf (SE.comparePure m.adult target).fitness
          = (SE.comparePure m.adult target).fitness :=
        max_eq_right (le_of_lt hgt)
      simp only [hmaxf] at h ⊢
      by_cases hfM : (SE.comparePure m.adult target).fitness
          = rest.foldl
            (fun a m => max a (SE.comparePure m.adult target).fitness)
            (SE.comparePure m.adult target).fitness
      · refine ⟨m, ?_, hfM, ?_⟩
        · rw [List.find?_cons_of_pos]
          simp only [decide_eq_true_eq]
          exact hfM
        · simp only [bestScan]
          rw [if_pos hgt]
          have hstay := bestScan_stay target rest
            (SE.comparePure m.adult target).fitness (some (m.seed, m.adult))
            (fun x hx => by
              have := mem_le_foldl_max target rest
                (SE.comparePure m.adult target).fitness x hx
              omega)
          rw [hstay]
      · have hlt : (SE.comparePure m.adult target).fitness
            < rest.foldl
              (fun a m => max a (SE.comparePure m.adult target).fitness)
              (SE.comparePure m.adult target).fitness := by
          have := le_foldl_max target rest
            (SE.comparePure m.adult target).fitness
          omega
        obtain ⟨m₀, hfind, hfit, hscan⟩ :=
          ih (SE.comparePure m.adult target).fitness
            (some (m.seed, m.adult)) hlt
        refine ⟨m₀, ?_, hfit, ?_⟩
        · rw [List.find?_cons_of_neg]
          · exact hfind
          · simp only [decide_eq_true_eq]
            exact hfM
        · simp only [bestScan]
          rw [if_pos hgt]
          exact hscan
    · have hmaxf : max bf (SE.comparePure m.adult target).fitness = bf :=
        max_eq_left (by omega)
      simp only [hmaxf] at h ⊢
      obtain ⟨m₀, hfind, hfit, hscan⟩ := ih bf best h
      have hmne : ¬ (SE.comparePure m.adult target).fitness
          = rest.foldl
            (fun a m => max a (SE.comparePure m.adult target).fitness) bf
          := by
        have := le_foldl_max target rest bf
        omega
      refine ⟨m₀, ?_, hfit, ?_⟩
      · rw [List.find?_cons_of_neg]
        · exact hfind
        · simp only [decide_eq_true_eq]
          exact hmne
      · simp only [bestScan]
        rw [if_neg hgt]
        exact hscan

theorem compare_blue (s : RState) :
    SE.compare blueMat blueMat 60 s = .ok (⟨3600, 3600, 0, 0, 0⟩, s) := by
  rw [compare_ok_of_dims blueMat_dims.1 blueMat_dims.2 blueMat_dims.1
    blueMat_dims.2, comparePure_blue]

/-- C6 counterexample: a population whose single member recomputes to
fitness 0 (the maximum over the whole population); the scan starts its
tracker at 0 and uses strict greater-than, so no member is ever recorded and
the emitted best pair is `none`, not that maximum member's seed/adult
pair. -/
theorem SE_finalReport_zero_counterexample :
    (SE.comparePure whiteMat whiteMat).fitness = 0
    ∧ SE.finalReport whiteMat 60 [⟨[[0]], whiteMat, 0⟩] ⟨[], []⟩
        = .ok ((0, none), ⟨[], []⟩)
    ∧ (none : Option (Mat × Mat))
        ≠ some ((⟨[[0]], whiteMat, 0⟩ : Member).seed,
            (⟨[[0]], whiteMat, 0⟩ : Member).adult) := by
  refine ⟨by rw [comparePure_white], ?_, by simp⟩
  unfold SE.finalReport
  simp only [SE.finalLoop, compare_white]
  norm_num

/-- C6 (amended): the final report scans the population once, recomputing
each member's fitness with `compare`; PROVIDED some member's recomputed
fitness is strictly positive (the tracker starts at `best_fitness_so_far =
0`), the emitted pair is the seed/adult of the FIRST member attaining the
maximum recomputed fitness (strict greater-than keeps the first-seen
maximum), and the reported best fitness is that maximum. -/
theorem SE_finalReport_first_max :
    ∀ (target : Mat) (pop : List Member) (s : RState),
      target.length = 60 → (target.headD []).length = 60 →
      (∀ m ∈ pop, m.adult.length = 60 ∧ (m.adult.headD []).length = 60) →
      (∃ m ∈ pop, 0 < (SE.comparePure m.adult target).fitness) →
      ∃ m₀, pop.find? (fun m => (SE.comparePure m.adult target).fitness
            = bestFit0 target pop) = some m₀
        ∧ (SE.comparePure m₀.adult target).fitness = bestFit0 target pop
        ∧ (∀ m ∈ pop, (SE.comparePure m.adult target).fitness
            ≤ bestFit0 target pop)
        ∧ SE.finalReport target 60 pop s
            = .ok ((bestFit0 target pop, some (m₀.seed, m₀.adult)), s) := by
  intro target pop s hT1 hT2 hall hpos
  obtain ⟨mw, hmw, hmwpos⟩ := hpos
  have hlt : (0 : ℤ) < pop.foldl
      (fun a m => max a (SE.comparePure m.adult target).fitness) 0 :=
    lt_of_lt_of_le hmwpos (mem_le_foldl_max target pop 0 mw hmw)
  obtain ⟨m₀, hfind, hfit, hscan⟩ := bestScan_snd target pop 0 none hlt
  refine ⟨m₀, hfind, hfit, fun m hm => mem_le_foldl_max target pop 0 m hm,
    ?_⟩
  unfold SE.finalReport
  rw [finalLoop_eq target hT1 hT2 pop hall 0 none s]
  have hpair : bestScan target pop 0 none
      = (bestFit0 target pop, some (m₀.seed, m₀.adult)) := by
    have h1 := bestScan_fst target pop 0 none
    refine Prod.ext ?_ ?_
    · rw [h1]; rfl
    · rw [hscan]
  rw [hpair]

/-- C6 witness: a single-member population recomputing to fitness 3600 > 0 —
the first-seen (only) member's seed/adult pair is emitted with the maximum
3600. -/
theorem SE_finalReport_first_max_witness :
    ∃ m₀, [(⟨[[2]], blueMat, 7⟩ : Member)].find?
          (fun m => (SE.comparePure m.adult blueMat).fitness
            = bestFit0 blueMat [⟨[[2]], blueMat, 7⟩]) = some m₀
      ∧ (SE.comparePure m₀.adult blueMat).fitness
          = bestFit0 blueMat [⟨[[2]], blueMat, 7⟩]
      ∧ (∀ m ∈ [(⟨[[2]], blueMat, 7⟩ : Member)],
          (SE.comparePure m.adult blueMat).fitness
            ≤ bestFit0 blueMat [⟨[[2]], blueMat, 7⟩])
      ∧ SE.finalReport blueMat 60 [⟨[[2]], blueMat, 7⟩] ⟨[], []⟩
          = .ok ((bestFit0 blueMat [⟨[[2]], blueMat, 7⟩],
              some (m₀.seed, m₀.adult)), ⟨[], []⟩) :=
  SE_finalReport_first_max blueMat [⟨[[2]], blueMat, 7⟩] ⟨[], []⟩
    blueMat_dims.1 blueMat_dims.2
    (fun m hm => by
      rw [List.mem_singleton.mp hm]
      exact ⟨blueMat_dims.1, blueMat_dims.2⟩)
    ⟨⟨[[2]], blueMat, 7⟩, List.mem_singleton.mpr rfl, by
      rw [comparePure_blue]
      norm_num⟩

theorem msel_assert (pop : List Member) (sample_size : ℕ) (target : Mat)
    (pm : ℚ) (s : RState) (h : pop.length < sample_size) :
    SE.mutate_and_select_seed pop sample_size target pm s
      = .error .assertFail := by
  unfold SE.mutate_and_select_seed
  rw [if_neg (by omega)]

theorem evoStep_assert (population_size sample_size : ℕ) (pm : ℚ)
    (adult_size : ℕ) (target : Mat) (grow : Mat → Mat) (pop : List Member)
    (s : RState) (hps : 0 < population_size)
    (h : pop.length < sample_size) :
    SE.evoStep population_size sample_size pm adult_size target grow pop s
      = .error .assertFail := by
  rw [evoStep_eq population_size sample_size pm adult_size target grow pop s
    hps]
  rw [msel_assert pop sample_size target pm _ h]

theorem sampleSet_succ (grow : Mat → Mat) (pr pb : ℚ) (evo asz : ℕ)
    (target : Mat) (n : ℕ) (s : RState) :
    SE.sampleSet grow pr pb evo asz target (n + 1) s
      = (match SE.compare (grow (SE.make_seed_matrix pr pb evo s).1) target
          asz (SE.make_seed_matrix pr pb evo s).2 with
        | .error e => .error e
        | .ok (res, s2) =>
          if res.fitness = res.true_blue + res.true_red + res.false_blue
              + res.false_red then
            match SE.sampleSet grow pr pb evo asz target n s2 with
            | .error e => .error e
            | .ok (rest, s3) =>
              .ok (⟨(SE.make_seed_matrix pr pb evo s).1,
                grow (SE.make_seed_matrix pr pb evo s).1,
                res.fitness⟩ :: rest, s3)
          else .error .assertFail) := rfl

theorem sampleSet_ok (grow : Mat → Mat) (pr pb : ℚ) (evo : ℕ) (target : Mat)
    (hg : ∀ m2 : Mat, (grow m2).length = 60
      ∧ ((grow m2).headD []).length = 60)
    (hT1 : target.length = 60) (hT2 : (target.headD []).length = 60) :
    ∀ (n : ℕ) (s : RState), ∃ samples s₁,
      SE.sampleSet grow pr pb evo 60 target n s = .ok (samples, s₁)
        ∧ samples.length = n := by
  intro n
  induction n with
  | zero => intro s; exact ⟨[], s, rfl, rfl⟩
  | succ k ih =>
    intro s
    obtain ⟨rest, s₂, hrest, hlen⟩ := ih (SE.make_seed_matrix pr pb evo s).2
    refine ⟨⟨(SE.make_seed_matrix pr pb evo s).1,
        grow (SE.make_seed_matrix pr pb evo s).1,
        (SE.comparePure (grow (SE.make_seed_matrix pr pb evo s).1)
          target).fitness⟩ :: rest, s₂, ?_, by simp [hlen]⟩
    rw [sampleSet_succ]
    rw [compare_ok_of_dims (hg _).1 (hg _).2 hT1 hT2]
    dsimp only
    rw [if_pos (comparePure_inv _ _).1, hrest]

theorem bootstrapSlot_ok (grow : Mat → Mat) (pr pb : ℚ) (evo : ℕ)
    (target : Mat) (sample_size : ℕ)
    (hg : ∀ m2 : Mat, (grow m2).length = 60
      ∧ ((grow m2).headD []).length = 60)
    (hT1 : target.length = 60) (hT2 : (target.headD []).length = 60)
    (hss : 1 ≤ sample_size) (s : RState) :
    ∃ best s₁, SE.bootstrapSlot grow pr pb evo 60 sample_size target s
      = .ok (best, s₁) := by
  obtain ⟨samples, s₁, hset, hlen⟩ :=
    sampleSet_ok grow pr pb evo target hg hT1 hT2 sample_size s
  have hne : samples ≠ [] := by
    intro hnil
    rw [hnil] at hlen
    simp at hlen
    omega
  unfold SE.bootstrapSlot
  rw [hset]
  dsimp only
  cases hlm : lastMax samples with
  | none => exact absurd (lastMax_eq_none hlm) hne
  | some best =>
    rw [getLast_insertionSort, hlm]
    exact ⟨best, s₁, rfl⟩

theorem bootstrap_ok (grow : Mat → Mat) (pr pb : ℚ) (evo : ℕ) (target : Mat)
    (sample_size : ℕ)
    (hg : ∀ m2 : Mat, (grow m2).length = 60
      ∧ ((grow m2).headD []).length = 60)
    (hT1 : target.length = 60) (hT2 : (target.headD []).length = 60)
    (hss : 1 ≤ sample_size) :
    ∀ (n : ℕ) (s : RState), ∃ pops s',
      SE.bootstrap grow pr pb evo 60 sample_size target n s = .ok (pops, s')
        ∧ pops.length = n := by
  intro n
  induction n with
  | zero => intro s; exact ⟨[], s, rfl, rfl⟩
  | succ k ih =>
    intro s
    obtain ⟨best, s₁, hslot⟩ :=
      bootstrapSlot_ok grow pr pb evo target sample_size hg hT1 hT2 hss s
    obtain ⟨rest, s₂, hrest, hlen⟩ := ih s₁
    refine ⟨best :: rest, s₂, ?_, by simp [hlen]⟩
    show SE.bootstrap grow pr pb evo 60 sample_size target (k + 1) s = _
    simp only [SE.bootstrap, hslot, hrest]

theorem bootstrap_length (grow : Mat → Mat) (pr pb : ℚ)
    (evo asz sample_size : ℕ) (target : Mat) :
    ∀ (n : ℕ) (s : RState) (pops : List Member) (s' : RState),
      SE.bootstrap grow pr pb evo asz sample_size target n s
        = .ok (pops, s') → pops.length = n := by
  intro n
  induction n with
  | zero =>
    intro s pops s' h
    simp only [SE.bootstrap, Except.ok.injEq, Prod.mk.injEq] at h
    rw [← h.1]
    rfl
  | succ k ih =>
    intro s pops s' h
    simp only [SE.bootstrap] at h
    split at h
    · simp at h
    · rename_i best s1 hslot
      split at h
      · simp at h
      · rename_i rest s2 hrest
        simp only [Except.ok.injEq, Prod.mk.injEq] at h
        rw [← h.1]
        simp [ih s1 rest s2 hrest]

/-- C7 counterexample: the configuration `population_size = 1`,
`sample_size = 2` violates the bound, yet bootstrap runs to completion
(performing all its growth and scoring calls) and only the first steady-state
birth aborts with the assertion failure, inside `mutate_and_select_seed` —
the bound is not checked at startup before the simulation. -/
theorem SE_startup_check_counterexample :
    (∃ pops s', SE.bootstrap (fun _ => whiteMat) 0 0 1 60 2 whiteMat 1
        ⟨[], []⟩ = .ok (pops, s') ∧ pops.length = 1)
    ∧ SE.evoStep 1 2 0 60 whiteMat (fun _ => whiteMat)
        [⟨[[0]], whiteMat, 0⟩] ⟨[], []⟩ = .error .assertFail := by
  constructor
  · exact bootstrap_ok (fun _ => whiteMat) 0 0 1 whiteMat 2
      (fun _ => ⟨whiteMat_dims.1, whiteMat_dims.2⟩) whiteMat_dims.1
      whiteMat_dims.2 (by norm_num) 1 ⟨[], []⟩
  · exact evoStep_assert 1 2 0 60 whiteMat (fun _ => whiteMat)
      [⟨[[0]], whiteMat, 0⟩] ⟨[], []⟩ (by norm_num) (by norm_num)

/-- C7 (amended): the `sample_size <= population_size` bound (with
`sample_size >= 0`, trivial for a natural number) is NOT a startup check: it
is asserted inside `mutate_and_select_seed`, hence re-checked on every
steady-state birth; bootstrap performs all of its growth and scoring work
without any such check, and a violating configuration aborts only at the
first birth after bootstrap has completed. -/
theorem SE_sample_size_checked_per_birth :
    (∀ (pop : List Member) (sample_size : ℕ) (target : Mat) (pm : ℚ)
        (s : RState), pop.length < sample_size →
        SE.mutate_and_select_seed pop sample_size target pm s
          = .error .assertFail)
    ∧ (∀ (population_size sample_size : ℕ) (pm : ℚ) (adult_size : ℕ)
        (target : Mat) (grow : Mat → Mat) (pop : List Member) (s : RState),
        0 < population_size → pop.length < sample_size →
        SE.evoStep population_size sample_size pm adult_size target grow pop
          s = .error .assertFail)
    ∧ (∀ (grow : Mat → Mat) (pr pb : ℚ) (evo : ℕ) (target : Mat)
        (sample_size n : ℕ) (s : RState),
        (∀ m2 : Mat, (grow m2).length = 60
          ∧ ((grow m2).headD []).length = 60) →
        target.length = 60 → (target.headD []).length = 60 →
        1 ≤ sample_size →
        ∃ pops s', SE.bootstrap grow pr pb evo 60 sample_size target n s
            = .ok (pops, s') ∧ pops.length = n) := by
  refine ⟨msel_assert, evoStep_assert, ?_⟩
  intro grow pr pb evo target ss n s hg hT1 hT2 hss
  exact bootstrap_ok grow pr pb evo target ss hg hT1 hT2 hss n s

/-- C7 witness: the per-birth check at a concrete input — an empty population
with `sample_size = 1` makes `mutate_and_select_seed` fail its assert. -/
theorem SE_sample_size_checked_per_birth_witness :
    SE.mutate_and_select_seed [] 1 [] 0 ⟨[], []⟩ = .error .assertFail :=
  SE_sample_size_checked_per_birth.1 [] 1 [] 0 ⟨[], []⟩ (by norm_num)

/-- C10: with `sample_size = 0` (allowed by the stated startup invariants)
every slot's sample set is empty and `sorted_samples[-1]` raises an
IndexError, so bootstrap aborts for any positive population size; with
`sample_size >= 1` that branch is unreachable and bootstrap terminates
normally with every slot filled. -/
theorem SE_bootstrap_needs_one_sample :
    (∀ (grow : Mat → Mat) (pr pb : ℚ) (evo adult_size : ℕ) (target : Mat)
        (n : ℕ) (s : RState), 1 ≤ n →
        SE.bootstrap grow pr pb evo adult_size 0 target n s
          = .error .indexErr)
    ∧ (∀ (grow : Mat → Mat) (pr pb : ℚ) (evo : ℕ) (target : Mat)
        (sample_size n : ℕ) (s : RState),
        (∀ m2 : Mat, (grow m2).length = 60
          ∧ ((grow m2).headD []).length = 60) →
        target.length = 60 → (target.headD []).length = 60 →
        1 ≤ sample_size →
        ∃ pops s', SE.bootstrap grow pr pb evo 60 sample_size target n s
            = .ok (pops, s') ∧ pops.length = n) := by
  constructor
  · intro grow pr pb evo asz target n s hn
    cases n with
    | zero => omega
    | succ k =>
      have hslot : SE.bootstrapSlot grow pr pb evo asz 0 target s
          = .error .indexErr := rfl
      simp only [SE.bootstrap, hslot]
  · intro grow pr pb evo target ss n s hg hT1 hT2 hss
    exact bootstrap_ok grow pr pb evo target ss hg hT1 hT2 hss n s

/-- C10 witness: a one-slot bootstrap with `sample_size = 0` aborts with the
IndexError at a concrete configuration. -/
theorem SE_bootstrap_needs_one_sample_witness :
    SE.bootstrap (fun _ => whiteMat) 0 0 1 60 0 whiteMat 1 ⟨[], []⟩
      = .error .indexErr :=
  SE_bootstrap_needs_one_sample.1 (fun _ => whiteMat) 0 0 1 60 whiteMat 1
    ⟨[], []⟩ (by norm_num)

theorem msel_length (pop : List Member) (sample_size : ℕ) (target : Mat)
    (pm : ℚ) (s : RState) (popMid : List Member) (ret : Mat) (s' : RState)
    (h : SE.mutate_and_select_seed pop sample_size target pm s
      = .ok ((popMid, ret), s')) :
    popMid.length = pop.length := by
  by_cases hss : sample_size ≤ pop.length
  · by_cases hp0 : pop.length = 0
    · unfold SE.mutate_and_select_seed at h
      rw [if_pos hss] at h
      unfold randRange at h
      rw [if_pos hp0] at h
      simp at h
    · have hp : 0 < pop.length := Nat.pos_of_ne_zero hp0
      rw [mutate_and_select_eq pop sample_size target pm s hss hp] at h
      simp only at h
      split at h
      · simp at h
      · simp only [Except.ok.injEq, Prod.mk.injEq] at h
        rw [← h.1.1]
        simp
  · rw [msel_assert pop sample_size target pm s (by omega)] at h
    simp at h

theorem evoStep_length (population_size sample_size : ℕ) (pm : ℚ)
    (adult_size : ℕ) (target : Mat) (grow : Mat → Mat) (pop : List Member)
    (s : RState) (pop' : List Member) (s' : RState)
    (h : SE.evoStep population_size sample_size pm adult_size target grow pop
      s = .ok (pop', s')) :
    pop'.length = pop.length := by
  by_cases hps : 0 < population_size
  · rw [evoStep_eq population_size sample_size pm adult_size target grow pop
      s hps] at h
    split at h
    · simp at h
    · rename_i popMid newSeed s1 hm
      split at h
      · simp at h
      · rename_i r s2 hc
        simp only [Except.ok.injEq, Prod.mk.injEq] at h
        rw [← h.1]
        simp only [List.length_set]
        exact msel_length pop sample_size target pm _ popMid newSeed s1 hm
  · unfold SE.evoStep at h
    unfold randRange at h
    rw [if_pos (by omega)] at h
    simp at h

theorem evoLoop_length (population_size sample_size : ℕ) (pm : ℚ)
    (adult_size : ℕ) (target : Mat) (grow : Mat → Mat) :
    ∀ (n : ℕ) (pop : List Member) (s : RState) (pop' : List Member)
      (s' : RState),
      SE.evoLoop population_size sample_size pm adult_size target grow n pop
        s = .ok (pop', s') →
      pop'.length = pop.length := by
  intro n
  induction n with
  | zero =>
    intro pop s pop' s' h
    simp only [SE.evoLoop, Except.ok.injEq, Prod.mk.injEq] at h
    rw [← h.1]
  | succ k ih =>
    intro pop s pop' s' h
    simp only [SE.evoLoop] at h
    split at h
    · simp at h
    · rename_i pop1 s1 hstep
      rw [ih pop1 s1 pop' s' h,
        evoStep_length population_size sample_size pm adult_size target grow
          pop s pop1 s1 hstep]

/-- C8: after a normally-terminating bootstrap the population holds exactly
`population_size` members, and each steady-state iteration preserves this:
for every iteration count `n ≤ max_births`, running bootstrap followed by
`n` births yields a population of length exactly `population_size` (slots
are only replaced by index, never appended or removed). -/
theorem SE_population_length_invariant :
    ∀ (grow : Mat → Mat) (prob_red prob_blue prob_mutation : ℚ)
      (evolvability adult_size sample_size : ℕ) (target : Mat)
      (population_size max_births n : ℕ) (s : RState) (pop' : List Member)
      (s' : RState),
      n ≤ max_births →
      SE.evolve grow prob_red prob_blue prob_mutation evolvability adult_size
          sample_size population_size n target s = .ok (pop', s') →
      pop'.length = population_size := by
  intro grow pr pb pm evo asz ss target ps mb n s pop' s' hn h
  unfold SE.evolve at h
  split at h
  · simp at h
  · rename_i pop s₁ hboot
    rw [evoLoop_length ps ss pm asz target grow n pop s₁ pop' s' h]
    exact bootstrap_length grow pr pb evo asz ss target ps s pop s₁ hboot

theorem concrete_sampleSet :
    SE.sampleSet (fun _ => whiteMat) 0 0 1 60 whiteMat 1 ⟨[], []⟩
      = .ok ([⟨[[0]], whiteMat, 0⟩], ⟨[], []⟩) := by
  show SE.sampleSet (fun _ => whiteMat) 0 0 1 60 whiteMat (0 + 1) ⟨[], []⟩
      = .ok ([⟨[[0]], whiteMat, 0⟩], ⟨[], []⟩)
  have hms : SE.make_seed_matrix 0 0 1 ⟨[], []⟩ = ([[0]], ⟨[], []⟩) := by
    decide
  simp only [SE.sampleSet, hms, compare_white]
  norm_num

theorem concrete_bootstrap :
    SE.bootstrap (fun _ => whiteMat) 0 0 1 60 1 whiteMat 1 ⟨[], []⟩
      = .ok ([⟨[[0]], whiteMat, 0⟩], ⟨[], []⟩) := by
  have hslot : SE.bootstrapSlot (fun _ => whiteMat) 0 0 1 60 1 whiteMat
      ⟨[], []⟩ = .ok (⟨[[0]], whiteMat, 0⟩, ⟨[], []⟩) := by
    unfold SE.bootstrapSlot
    rw [concrete_sampleSet]
    rfl
  show SE.bootstrap (fun _ => whiteMat) 0 0 1 60 1 whiteMat (0 + 1) ⟨[], []⟩
      = .ok ([⟨[[0]], whiteMat, 0⟩], ⟨[], []⟩)
  simp only [SE.bootstrap, hslot]

theorem concrete_evoStep :
    SE.evoStep 1 1 0 60 whiteMat (fun _ => whiteMat) [⟨[[0]], whiteMat, 0⟩]
      ⟨[], []⟩ = .ok ([⟨[[0]], whiteMat, 0⟩], ⟨[], []⟩) := by
  rw [evoStep_eq 1 1 0 60 whiteMat (fun _ => whiteMat)
    [⟨[[0]], whiteMat, 0⟩] ⟨[], []⟩ (by norm_num)]
  have hmsel : SE.mutate_and_select_seed [⟨[[0]], whiteMat, 0⟩] 1 whiteMat 0
      ⟨[], []⟩ = .ok (([⟨[[0]], whiteMat, 0⟩], [[0]]), ⟨[], []⟩) := by
    decide
  simp only [List.tail_nil, hmsel, compare_white]
  norm_num

/-- C8 witness: a concrete one-slot run — bootstrap then one birth — ends
with a population of exactly `population_size = 1` member. -/
theorem SE_population_length_invariant_witness :
    SE.evolve (fun _ => whiteMat) 0 0 0 1 60 1 1 1 whiteMat ⟨[], []⟩
        = .ok ([⟨[[0]], whiteMat, 0⟩], ⟨[], []⟩)
      ∧ [(⟨[[0]], whiteMat, 0⟩ : Member)].length = 1 := by
  have hrun : SE.evolve (fun _ => whiteMat) 0 0 0 1 60 1 1 1 whiteMat
      ⟨[], []⟩ = .ok ([⟨[[0]], whiteMat, 0⟩], ⟨[], []⟩) := by
    unfold SE.evolve
    rw [concrete_bootstrap]
    show SE.evoLoop 1 1 0 60 whiteMat (fun _ => whiteMat) (0 + 1)
        [⟨[[0]], whiteMat, 0⟩] ⟨[], []⟩ = _
    simp only [SE.evoLoop, concrete_evoStep]
  exact ⟨hrun, SE_population_length_invariant (fun _ => whiteMat) 0 0 0 1 60
    1 whiteMat 1 1 1 ⟨[], []⟩ [⟨[[0]], whiteMat, 0⟩] ⟨[], []⟩ (le_refl 1)
    hrun⟩
